import Mathlib

/-!
Verification of the face-recognition attendance system's core logic.

The attendance ledger (`markAttendance` in `main.py`, `mark_attendance` in
`app.py`) is a CSV file: a header line plus one `name,time,date` line per
marked attendance.  Both functions create the file with a header if missing,
read it back as a list of lines, scan each line split on commas for an
existing `(name, today)` record, and append `\n{name},{time},{date}` when no
record is found.  Python strings are modelled as `List Char`; `readlines`,
`split(',')` and `strip()` are modelled character by character.

The identity matcher (the recognition loops of `main.py` and `app.py`) calls
the external `face_recognition` library: `face_distance` yields one distance
per gallery entry and `compare_faces` is the pointwise test `distance <=
tolerance` with the library's default tolerance 0.6; `np.argmin` returns the
first index of a minimal element and raises `ValueError` on an empty list.
The distance computation itself is floating-point library code, so it is kept
abstract as a parameter `d`; distances are modelled as rationals.
-/

namespace AttendanceSystem

/-- Python whitespace as recognised by `str.strip()` (ASCII range). -/
def isPySpace (c : Char) : Bool :=
  c = ' ' || c = '\t' || c = '\n' || c = '\r' || c = Char.ofNat 11 || c = Char.ofNat 12

/-- Python `str.strip()`: drop whitespace from both ends. -/
def pyStrip (l : List Char) : List Char :=
  ((l.dropWhile isPySpace).reverse.dropWhile isPySpace).reverse

/-- Python `str.split(sep)` for a one-character separator: `"".split(',') = ['']`. -/
def pySplit (sep : Char) : List Char → List (List Char)
  | [] => [[]]
  | c :: rest =>
    if c = sep then [] :: pySplit sep rest
    else
      match pySplit sep rest with
      | [] => [[c]]
      | l :: ls => (c :: l) :: ls

/-- Worker for `pyReadlines`: `acc` holds the current (reversed) partial line. -/
def pyReadlinesAux : List Char → List Char → List (List Char)
  | [], acc => if acc.isEmpty then [] else [acc.reverse]
  | c :: cs, acc =>
    if c = '\n' then (acc.reverse ++ ['\n']) :: pyReadlinesAux cs []
    else pyReadlinesAux cs (c :: acc)

/-- Python `f.readlines()`: split into lines, each keeping its trailing newline. -/
def pyReadlines (s : List Char) : List (List Char) := pyReadlinesAux s []

/-- Python `str.upper()` (ASCII model). -/
def pyUpper (l : List Char) : List Char := l.map Char.toUpper

/-- Decimal digit character for a single digit (values above nine clamp to `'9'`). -/
def digitOf : Nat → Char
  | 0 => '0'
  | 1 => '1'
  | 2 => '2'
  | 3 => '3'
  | 4 => '4'
  | 5 => '5'
  | 6 => '6'
  | 7 => '7'
  | 8 => '8'
  | _ => '9'

/-- The decimal digit of `n` in a given position, used by the zero-padded renderings. -/
def digitChar (n : Nat) : Char := digitOf (n % 10)

/-- Two-digit zero-padded rendering, as produced by `strftime` fields `%m %d %H %M %S`. -/
def pad2 (n : Nat) : List Char := [digitChar (n / 10), digitChar n]

/-- Four-digit zero-padded rendering, as produced by `strftime('%Y')`. -/
def pad4 (n : Nat) : List Char :=
  [digitChar (n / 1000), digitChar (n / 100), digitChar (n / 10), digitChar n]

/-- A calendar date as carried by `datetime.now()`. -/
structure PyDate where
  year : Nat
  month : Nat
  day : Nat
  deriving DecidableEq

/-- A time of day as carried by `datetime.now()`. -/
structure PyTime where
  hour : Nat
  minute : Nat
  second : Nat
  deriving DecidableEq

/-- A timestamp: the calendar date and time of day of one `datetime.now()` call. -/
structure Timestamp where
  date : PyDate
  time : PyTime
  deriving DecidableEq

/-- Rendering of `now.strftime('%Y-%m-%d')`. -/
def dateChars (d : PyDate) : List Char :=
  pad4 d.year ++ '-' :: (pad2 d.month ++ '-' :: pad2 d.day)

/-- Rendering of `now.strftime('%H:%M:%S')`. -/
def timeChars (t : PyTime) : List Char :=
  pad2 t.hour ++ ':' :: (pad2 t.minute ++ ':' :: pad2 t.second)

/-- The header line `"Name,Time,Date"` written when `Attendance.csv` is created. -/
def headerChars : List Char := "Name,Time,Date".data

/-- One iteration of the duplicate scan: `entry = line.split(',')`;
the line counts as an existing record when `len(entry) >= 3`,
`entry[0] == name` and `entry[2].strip() == today`. -/
def isDup (name today line : List Char) : Bool :=
  decide (3 ≤ (pySplit ',' line).length ∧ (pySplit ',' line).getD 0 [] = name ∧
    pyStrip ((pySplit ',' line).getD 2 []) = today)

/-- The duplicate scan over all lines read from the CSV file. -/
def dupScan (name today : List Char) (lines : List (List Char)) : Bool :=
  lines.any (isDup name today)

/-- The record text appended on success: `f'{name},{time_str},{today_str}'`. -/
def recordLine (name timeS today : List Char) : List Char :=
  name ++ ',' :: (timeS ++ ',' :: today)

/-- The file content after the create-if-missing step: a missing file is
created holding exactly the header. -/
def initContent : Option (List Char) → List Char
  | none => headerChars
  | some c => c

/-- Result strings of `main.py`'s `markAttendance`. -/
inductive MarkResult where
  | MARKED
  | ALREADY_LOGGED
  | ERROR
  deriving DecidableEq

/-- Modelled Python exceptions. -/
inductive PyExc where
  | fileNotFound
  | ioError
  | valueError
  deriving DecidableEq

/-- Model of `main.py`'s `markAttendance(name)`.  The file is the `Option` content of
`Attendance.csv` (`none` = missing).  `readFails` injects a fault into the
`open/readlines` step (the bare `except:` turns any such fault into
`lines = []`); `writeFails` injects a fault into the append (caught, returning
`"ERROR"` with the file unmodified). -/
def markAttendance (readFails writeFails : Bool) (name : List Char) (now : Timestamp)
    (file : Option (List Char)) : MarkResult × Option (List Char) :=
  let today := dateChars now.date
  let timeS := timeChars now.time
  let content := initContent file
  let lines := if readFails then [] else pyReadlines content
  if dupScan name today lines then (MarkResult.ALREADY_LOGGED, some content)
  else if writeFails then (MarkResult.ERROR, some content)
  else (MarkResult.MARKED, some (content ++ '\n' :: recordLine name timeS today))

/-- Result strings of `app.py`'s `mark_attendance`; there is no error result —
a failing append simply raises. -/
inductive AppResult where
  | Marked
  | AlreadyMarked
  deriving DecidableEq

/-- Shared tail of `app.py`'s `mark_attendance` after the read step:
duplicate scan, then unguarded append (a write fault raises `ioError`,
leaving the file unmodified). -/
def appMarkCore (writeFault : Bool) (name today timeS content : List Char)
    (lines : List (List Char)) : Except PyExc AppResult × Option (List Char) :=
  if dupScan name today lines then (Except.ok AppResult.AlreadyMarked, some content)
  else if writeFault then (Except.error PyExc.ioError, some content)
  else (Except.ok AppResult.Marked,
    some (content ++ '\n' :: recordLine name timeS today))

/-- Model of `app.py`'s `mark_attendance(name)`.  The read step catches only
`FileNotFoundError` (giving `lines = []`); any other read exception
propagates.  The pair carries the resulting file content alongside the
normal or exceptional outcome. -/
def mark_attendance (readFault : Option PyExc) (writeFault : Bool) (name : List Char)
    (now : Timestamp) (file : Option (List Char)) :
    Except PyExc AppResult × Option (List Char) :=
  let today := dateChars now.date
  let timeS := timeChars now.time
  let content := initContent file
  match readFault with
  | none => appMarkCore writeFault name today timeS content (pyReadlines content)
  | some PyExc.fileNotFound => appMarkCore writeFault name today timeS content []
  | some e => (Except.error e, some content)

/-- Number of lines of `content` that the duplicate scan reads as a record
for `(name, today)`. -/
def countDup (name today content : List Char) : Nat :=
  (pyReadlines content).countP (isDup name today)

/-- A sequence of sequential fault-free `markAttendance` calls. -/
def runCalls (reqs : List (List Char × Timestamp)) (file : Option (List Char)) :
    Option (List Char) :=
  reqs.foldl (fun f r => (markAttendance false false r.1 r.2 f).2) file

/-- Two concurrent fault-free calls interleaved as read₁, read₂, append₁,
append₂ on the same file: each call's duplicate scan sees the initial
content, each append lands on the then-current content.  Both the read
(whole-file `readlines`) and the append (`open('a')` + single `write`) are
atomic file operations; nothing in the code serialises the
read-check-append sequence. -/
def interleavedPair (n1 n2 : List Char) (t1 t2 : Timestamp) (file : Option (List Char)) :
    (MarkResult × MarkResult) × List Char :=
  let c0 := initContent file
  let d1 := dateChars t1.date
  let d2 := dateChars t2.date
  let dup1 := dupScan n1 d1 (pyReadlines c0)
  let dup2 := dupScan n2 d2 (pyReadlines c0)
  let c1 := if dup1 then c0 else c0 ++ '\n' :: recordLine n1 (timeChars t1.time) d1
  let c2 := if dup2 then c1 else c1 ++ '\n' :: recordLine n2 (timeChars t2.time) d2
  ((if dup1 then MarkResult.ALREADY_LOGGED else MarkResult.MARKED,
    if dup2 then MarkResult.ALREADY_LOGGED else MarkResult.MARKED), c2)

/-- A face embedding (the external model's fixed-length vector). -/
abbrev Emb := List ℚ

/-- Model of `face_recognition.face_distance(known, probe)`: one distance per gallery
entry, computed by the external library's distance function `d`. -/
def face_distance (d : Emb → Emb → ℚ) (known : List Emb) (probe : Emb) : List ℚ :=
  known.map (fun e => d e probe)

/-- Model of `face_recognition.compare_faces(known, probe, tolerance)`: the pointwise
test `face_distance(known, probe) <= tolerance`. -/
def compare_faces (d : Emb → Emb → ℚ) (known : List Emb) (probe : Emb) (tol : ℚ) :
    List Bool :=
  (face_distance d known probe).map (fun x => decide (x ≤ tol))

/-- Index of the first minimal element of a nonempty list (`np.argmin`'s
documented tie-breaking); `0` on the empty list, which `argmin` rules out. -/
def argminIdx : List ℚ → Nat
  | [] => 0
  | [_] => 0
  | x :: y :: ys =>
    if x ≤ (y :: ys).getD (argminIdx (y :: ys)) 0 then 0 else argminIdx (y :: ys) + 1

/-- Model of `np.argmin`: first index of a minimal element; raises (`none`) on an
empty sequence. -/
def argmin : List ℚ → Option Nat
  | [] => none
  | x :: xs => some (argminIdx (x :: xs))

/-- Minimum of a list of distances (`0` on the empty list, never used there). -/
def minD : List ℚ → ℚ
  | [] => 0
  | [x] => x
  | x :: y :: ys => min x (minD (y :: ys))

/-- Outcome of one face in `main.py`'s recognition loop. -/
inductive RecogOutcome where
  | Recognized (name : List Char) (score : ℚ)
  | Stranger (score : ℚ)
  deriving DecidableEq

/-- One face of `main.py`'s recognition loop: `compare_faces` with the
default tolerance 0.6, `np.argmin(faceDis)` (raising `ValueError` on an
empty gallery — the `len(faceDis) > 0` guard sits after the `argmin` call),
then the boolean `matches[matchIndex]` decides recognised versus stranger;
the score shown is `faceDis[matchIndex]` in both branches. -/
def mainRecognizeStep (d : Emb → Emb → ℚ) (names : List (List Char)) (known : List Emb)
    (probe : Emb) : Except PyExc RecogOutcome :=
  match argmin (face_distance d known probe) with
  | none => Except.error PyExc.valueError
  | some i =>
    if (compare_faces d known probe (3 / 5)).getD i false then
      Except.ok (RecogOutcome.Recognized (pyUpper (names.getD i []))
        ((face_distance d known probe).getD i 0))
    else Except.ok (RecogOutcome.Stranger ((face_distance d known probe).getD i 0))

/-- Outcome of `app.py`'s Simple Mode check-in for one detected face. -/
inductive SimpleOutcome where
  | NoUsers
  | CheckedIn (name : List Char) (status : AppResult)
  | UnknownUser
  deriving DecidableEq

/-- Model of `app.py` Simple Mode, one detected face: the `if not knownEncodings`
guard reports "no registered users" before any matching; otherwise
`compare_faces`/`argmin` as in the real-time loop, marking attendance on a
match and reporting an unknown user otherwise. -/
def simpleModeStep (d : Emb → Emb → ℚ) (names : List (List Char)) (known : List Emb)
    (probe : Emb) (t : Timestamp) (file : Option (List Char)) :
    SimpleOutcome × Option (List Char) :=
  if known.isEmpty then (SimpleOutcome.NoUsers, file)
  else
    let matchesL := compare_faces d known probe (3 / 5)
    let faceDis := face_distance d known probe
    match argmin faceDis with
    | none => (SimpleOutcome.UnknownUser, file)
    | some i =>
      if matchesL.getD i false then
        let nm := pyUpper (names.getD i [])
        let m := mark_attendance none false nm t file
        match m.1 with
        | Except.ok st => (SimpleOutcome.CheckedIn nm st, m.2)
        | Except.error _ => (SimpleOutcome.UnknownUser, m.2)
      else (SimpleOutcome.UnknownUser, file)

/-- Replacement of the last field of a split by itself with a character
appended; describes how `split` reacts to appending one non-separator
character. -/
def appendLast (c : Char) : List (List Char) → List (List Char)
  | [] => []
  | [x] => [x ++ [c]]
  | x :: y :: xs => x :: appendLast c (y :: xs)

/-! ### Lemmas about the Python string primitives -/

lemma dropWhile_eq_self_of (p : Char → Bool) (l : List Char)
    (h : ∀ c ∈ l, p c = false) : l.dropWhile p = l := by
  cases l with
  | nil => rfl
  | cons a t => simp [List.dropWhile, h a (by simp)]

lemma pyStrip_eq_self (l : List Char) (h : ∀ c ∈ l, isPySpace c = false) :
    pyStrip l = l := by
  unfold pyStrip
  rw [dropWhile_eq_self_of _ _ h, dropWhile_eq_self_of, List.reverse_reverse]
  intro c hc
  exact h c (List.mem_reverse.mp hc)

lemma pyStrip_cons_space (a : Char) (l : List Char) (h : isPySpace a = true) :
    pyStrip (a :: l) = pyStrip l := by
  unfold pyStrip
  rw [List.dropWhile_cons_of_pos h]

lemma pyStrip_append_space (l : List Char) (ch : Char) (h : isPySpace ch = true) :
    pyStrip (l ++ [ch]) = pyStrip l := by
  induction l with
  | nil =>
    unfold pyStrip
    simp [List.dropWhile, h]
  | cons a t ih =>
    by_cases ha : isPySpace a = true
    · rw [List.cons_append, pyStrip_cons_space a _ ha, pyStrip_cons_space a _ ha, ih]
    · unfold pyStrip
      rw [List.cons_append, List.dropWhile_cons_of_neg ha, List.dropWhile_cons_of_neg ha]
      have : (a :: (t ++ [ch])).reverse = ch :: (a :: t).reverse := by simp
      rw [this, List.dropWhile_cons_of_pos h]

lemma pySplit_cons_eq (sep : Char) (t : List Char) :
    pySplit sep (sep :: t) = [] :: pySplit sep t := by
  conv_lhs => unfold pySplit
  rw [if_pos rfl]

lemma pySplit_cons_ne (sep x : Char) (t : List Char) (hx : x ≠ sep) (m : List Char)
    (ms : List (List Char)) (hm : pySplit sep t = m :: ms) :
    pySplit sep (x :: t) = (x :: m) :: ms := by
  conv_lhs => unfold pySplit
  rw [if_neg hx, hm]

lemma pySplit_ne_nil (sep : Char) : ∀ (l : List Char), pySplit sep l ≠ []
  | [] => by simp [pySplit]
  | c :: rest => by
    by_cases h : c = sep
    · subst h
      rw [pySplit_cons_eq]
      simp
    · obtain ⟨m, ms, hm⟩ := List.exists_cons_of_ne_nil (pySplit_ne_nil sep rest)
      rw [pySplit_cons_ne sep c rest h m ms hm]
      simp

lemma pySplit_no_sep (sep : Char) (l : List Char) (h : ∀ c ∈ l, c ≠ sep) :
    pySplit sep l = [l] := by
  induction l with
  | nil => rfl
  | cons a t ih =>
    have ht := ih fun c hc => h c (by simp [hc])
    rw [pySplit_cons_ne sep a t (h a (by simp)) t [] ht]

lemma pySplit_append_sep (sep : Char) (a r : List Char) (h : ∀ c ∈ a, c ≠ sep) :
    pySplit sep (a ++ sep :: r) = a :: pySplit sep r := by
  induction a with
  | nil =>
    rw [List.nil_append, pySplit_cons_eq]
  | cons x t ih =>
    have ht := ih fun c hc => h c (by simp [hc])
    have hx : x ≠ sep := h x (by simp)
    obtain ⟨m, ms, hm⟩ := List.exists_cons_of_ne_nil (pySplit_ne_nil sep r)
    rw [List.cons_append,
      pySplit_cons_ne sep x (t ++ sep :: r) hx t (pySplit sep r) ht]

lemma pySplit_append_char (sep : Char) (l : List Char) (c : Char) (hc : c ≠ sep) :
    pySplit sep (l ++ [c]) = appendLast c (pySplit sep l) := by
  induction l with
  | nil =>
    rw [List.nil_append, pySplit_cons_ne sep c [] hc [] [] rfl]
    rfl
  | cons a t ih =>
    obtain ⟨m, ms, hm⟩ := List.exists_cons_of_ne_nil (pySplit_ne_nil sep t)
    by_cases ha : a = sep
    · subst ha
      rw [List.cons_append, pySplit_cons_eq, ih, pySplit_cons_eq, hm]
      rfl
    · cases ms with
      | nil =>
        have hsplit : pySplit sep (t ++ [c]) = (m ++ [c]) :: [] := by
          rw [ih, hm]
          rfl
        rw [List.cons_append,
          pySplit_cons_ne sep a (t ++ [c]) ha (m ++ [c]) [] hsplit,
          pySplit_cons_ne sep a t ha m [] hm]
        rfl
      | cons k ks =>
        have hsplit : pySplit sep (t ++ [c]) = m :: appendLast c (k :: ks) := by
          rw [ih, hm]
          rfl
        rw [List.cons_append,
          pySplit_cons_ne sep a (t ++ [c]) ha m (appendLast c (k :: ks)) hsplit,
          pySplit_cons_ne sep a t ha m (k :: ks) hm]
        rfl

lemma appendLast_length (c : Char) (xs : List (List Char)) :
    (appendLast c xs).length = xs.length := by
  induction xs with
  | nil => rfl
  | cons x t ih =>
    cases t with
    | nil => rfl
    | cons y ys => simpa [appendLast] using ih

lemma appendLast_getD_of_lt (c : Char) (xs : List (List Char)) (i : Nat)
    (h : i + 1 < xs.length) : (appendLast c xs).getD i [] = xs.getD i [] := by
  induction xs generalizing i with
  | nil => simp at h
  | cons x t ih =>
    cases t with
    | nil => simp at h
    | cons y ys =>
      cases i with
      | zero => rfl
      | succ k =>
        have hk : k + 1 < (y :: ys).length := by simpa using h
        simpa [appendLast, List.getD] using ih k hk

lemma appendLast_getD_last (c : Char) (xs : List (List Char)) (n : Nat)
    (h : xs.length = n + 1) : (appendLast c xs).getD n [] = xs.getD n [] ++ [c] := by
  induction xs generalizing n with
  | nil => simp at h
  | cons x t ih =>
    cases t with
    | nil =>
      have : n = 0 := by simpa using h
      subst this
      rfl
    | cons y ys =>
      cases n with
      | zero => simp at h
      | succ k =>
        have hk : (y :: ys).length = k + 1 := by simpa using h
        simpa [appendLast, List.getD] using ih k hk

/-! ### Lemmas about readlines -/

lemma pyReadlinesAux_no_newline :
    ∀ (rec : List Char), '\n' ∉ rec → ∀ acc : List Char,
      pyReadlinesAux rec acc =
        if (acc.reverse ++ rec).isEmpty then [] else [acc.reverse ++ rec]
  | [], _, acc => by cases acc <;> simp [pyReadlinesAux]
  | c :: cs, hn, acc => by
    have hc : ¬(c = '\n') := by
      intro h
      subst h
      exact hn (List.mem_cons_self _ _)
    have hcs : '\n' ∉ cs := fun h => hn (List.mem_cons_of_mem _ h)
    conv_lhs => unfold pyReadlinesAux
    rw [if_neg hc, pyReadlinesAux_no_newline cs hcs (c :: acc)]
    simp [List.append_assoc]

lemma pyReadlinesAux_countP_append (P : List Char → Bool)
    (hP : ∀ l, P (l ++ ['\n']) = P l) (hnil : P [] = false)
    (rec : List Char) (hrec : '\n' ∉ rec) :
    ∀ (cs acc : List Char),
      (pyReadlinesAux (cs ++ '\n' :: rec) acc).countP P
        = (pyReadlinesAux cs acc).countP P + if P rec then 1 else 0 := by
  intro cs
  induction cs with
  | nil =>
    intro acc
    conv_lhs => rw [List.nil_append]
    conv_lhs => unfold pyReadlinesAux
    conv_rhs => unfold pyReadlinesAux
    rw [if_pos rfl, List.countP_cons, hP, pyReadlinesAux_no_newline rec hrec []]
    simp only [List.reverse_nil, List.nil_append]
    have h1 : (if rec.isEmpty then ([] : List (List Char)) else [rec]).countP P
        = if P rec then 1 else 0 := by
      cases rec with
      | nil => simp [hnil]
      | cons a b => simp [List.countP_cons]
    have h2 : (if acc.isEmpty then ([] : List (List Char)) else [acc.reverse]).countP P
        = if P acc.reverse then 1 else 0 := by
      cases acc with
      | nil => simp [hnil]
      | cons a b => simp [List.countP_cons]
    rw [h1, h2]
    exact Nat.add_comm _ _
  | cons ch cs ih =>
    intro acc
    by_cases h : ch = '\n'
    · subst h
      conv_lhs => rw [List.cons_append]
      conv_lhs => unfold pyReadlinesAux
      conv_rhs => unfold pyReadlinesAux
      rw [if_pos rfl, if_pos rfl, List.countP_cons, List.countP_cons, ih []]
      omega
    · conv_lhs => rw [List.cons_append]
      conv_lhs => unfold pyReadlinesAux
      conv_rhs => unfold pyReadlinesAux
      rw [if_neg h, if_neg h]
      exact ih (ch :: acc)

/-! ### Lemmas about the duplicate-scan predicate -/

lemma isDup_nil (n d : List Char) : isDup n d [] = false := by
  simp [isDup, pySplit]

lemma isDup_append_newline (n d l : List Char) :
    isDup n d (l ++ ['\n']) = isDup n d l := by
  unfold isDup
  rw [pySplit_append_char ',' l '\n' (by decide)]
  obtain ⟨m, ms, hm⟩ := List.exists_cons_of_ne_nil (pySplit_ne_nil ',' l)
  rw [hm]
  rcases lt_or_le (m :: ms).length 3 with h3 | h3
  · have hn3 : ¬(3 ≤ (m :: ms).length) := not_le.mpr h3
    rw [appendLast_length, decide_eq_decide]
    constructor
    · intro h
      exact absurd h.1 hn3
    · intro h
      exact absurd h.1 hn3
  · have h0 : (appendLast '\n' (m :: ms)).getD 0 [] = (m :: ms).getD 0 [] :=
      appendLast_getD_of_lt '\n' (m :: ms) 0 (by omega)
    have h2 : pyStrip ((appendLast '\n' (m :: ms)).getD 2 [])
        = pyStrip ((m :: ms).getD 2 []) := by
      rcases eq_or_lt_of_le h3 with he | hl
      · rw [appendLast_getD_last '\n' (m :: ms) 2 he.symm]
        exact pyStrip_append_space _ '\n' (by decide)
      · rw [appendLast_getD_of_lt '\n' (m :: ms) 2 (by omega)]
    rw [appendLast_length, h0, h2]

lemma countDup_append_record (n d c rec : List Char) (hrec : '\n' ∉ rec) :
    countDup n d (c ++ '\n' :: rec)
      = countDup n d c + if isDup n d rec then 1 else 0 := by
  unfold countDup pyReadlines
  exact pyReadlinesAux_countP_append (isDup n d) (isDup_append_newline n d)
    (isDup_nil n d) rec hrec c []

lemma dupScan_iff_countP (n d : List Char) (lines : List (List Char)) :
    dupScan n d lines = true ↔ 0 < lines.countP (isDup n d) := by
  rw [dupScan, List.any_eq_true, List.countP_pos_iff]

/-! ### The strftime renderings are comma-free, newline-free and unpadded -/

lemma digitOf_clean : ∀ m : Nat,
    digitOf m ≠ ',' ∧ digitOf m ≠ '\n' ∧ isPySpace (digitOf m) = false
  | 0 => by decide
  | 1 => by decide
  | 2 => by decide
  | 3 => by decide
  | 4 => by decide
  | 5 => by decide
  | 6 => by decide
  | 7 => by decide
  | 8 => by decide
  | m + 9 => by
    have h : digitOf (m + 9) = '9' := rfl
    rw [h]
    decide

lemma digitChar_clean (k : Nat) :
    digitChar k ≠ ',' ∧ digitChar k ≠ '\n' ∧ isPySpace (digitChar k) = false :=
  digitOf_clean (k % 10)

lemma dateChars_clean (dt : PyDate) :
    ∀ c ∈ dateChars dt, c ≠ ',' ∧ c ≠ '\n' ∧ isPySpace c = false := by
  intro c hc
  have he : dateChars dt =
      [digitChar (dt.year / 1000), digitChar (dt.year / 100), digitChar (dt.year / 10),
       digitChar dt.year, '-', digitChar (dt.month / 10), digitChar dt.month, '-',
       digitChar (dt.day / 10), digitChar dt.day] := rfl
  rw [he] at hc
  simp only [List.mem_cons, List.not_mem_nil, or_false] at hc
  rcases hc with rfl | rfl | rfl | rfl | rfl | rfl | rfl | rfl | rfl | rfl <;>
    first
    | exact digitChar_clean _
    | decide

lemma timeChars_clean (tm : PyTime) :
    ∀ c ∈ timeChars tm, c ≠ ',' ∧ c ≠ '\n' ∧ isPySpace c = false := by
  intro c hc
  have he : timeChars tm =
      [digitChar (tm.hour / 10), digitChar tm.hour, ':', digitChar (tm.minute / 10),
       digitChar tm.minute, ':', digitChar (tm.second / 10), digitChar tm.second] := rfl
  rw [he] at hc
  simp only [List.mem_cons, List.not_mem_nil, or_false] at hc
  rcases hc with rfl | rfl | rfl | rfl | rfl | rfl | rfl | rfl <;>
    first
    | exact digitChar_clean _
    | decide

lemma pyStrip_dateChars (dt : PyDate) : pyStrip (dateChars dt) = dateChars dt :=
  pyStrip_eq_self _ fun c hc => (dateChars_clean dt c hc).2.2

/-! ### Parsing the appended record back -/

lemma pySplit_recordLine (name : List Char) (tm : PyTime) (dt : PyDate)
    (hc : ',' ∉ name) :
    pySplit ',' (recordLine name (timeChars tm) (dateChars dt))
      = [name, timeChars tm, dateChars dt] := by
  unfold recordLine
  rw [pySplit_append_sep ',' name _ fun c hm he => hc (he ▸ hm),
    pySplit_append_sep ',' (timeChars tm) _ fun c hm => (timeChars_clean tm c hm).1,
    pySplit_no_sep ',' (dateChars dt) fun c hm => (dateChars_clean dt c hm).1]

lemma isDup_recordLine (n d name : List Char) (tm : PyTime) (dt : PyDate)
    (hc : ',' ∉ name) :
    isDup n d (recordLine name (timeChars tm) (dateChars dt))
      = decide (name = n ∧ dateChars dt = d) := by
  unfold isDup
  rw [pySplit_recordLine name tm dt hc]
  simp [List.getD, pyStrip_dateChars, decide_eq_decide]

lemma newline_not_mem_recordLine (name : List Char) (tm : PyTime) (dt : PyDate)
    (hn : '\n' ∉ name) :
    '\n' ∉ recordLine name (timeChars tm) (dateChars dt) := by
  unfold recordLine
  intro h
  rcases List.mem_append.mp h with h | h
  · exact hn h
  · rcases List.mem_cons.mp h with h | h
    · exact absurd h (by decide)
    · rcases List.mem_append.mp h with h | h
      · exact (timeChars_clean tm _ h).2.1 rfl
      · rcases List.mem_cons.mp h with h | h
        · exact absurd h (by decide)
        · exact (dateChars_clean dt _ h).2.1 rfl

/-! ### Ledger-level lemmas -/

lemma pyReadlines_headerChars : pyReadlines headerChars = [headerChars] := by decide

lemma countDup_headerChars_le_one (n d : List Char) : countDup n d headerChars ≤ 1 := by
  unfold countDup
  rw [pyReadlines_headerChars]
  exact le_trans (List.countP_le_length _) (by decide)

/-- A fault-free `markAttendance` call is exactly the two-phase sequence
modelled by `interleavedPair`: a duplicate scan of the current content,
then an append decided by that scan. -/
lemma markAttendance_phases (name : List Char) (t : Timestamp) (f : Option (List Char)) :
    markAttendance false false name t f
      = (if dupScan name (dateChars t.date) (pyReadlines (initContent f)) then
           MarkResult.ALREADY_LOGGED else MarkResult.MARKED,
         some (if dupScan name (dateChars t.date) (pyReadlines (initContent f)) then
           initContent f
         else initContent f ++ '\n' :: recordLine name (timeChars t.time) (dateChars t.date))) := by
  by_cases h : dupScan name (dateChars t.date) (pyReadlines (initContent f)) = true
  · simp [markAttendance, h]
  · have hF : dupScan name (dateChars t.date) (pyReadlines (initContent f)) = false := by
      simpa using h
    simp [markAttendance, hF]

/-- Any single fault-free `markAttendance` call with a comma-free,
newline-free name preserves the at-most-one-record-per-(name, date)
invariant of the ledger. -/
lemma countDup_le_one_preserved (nm : List Char) (t : Timestamp) (f : Option (List Char))
    (hc : ',' ∉ nm) (hn : '\n' ∉ nm)
    (hinv : ∀ n d, countDup n d (initContent f) ≤ 1) :
    ∀ n d, countDup n d (initContent (markAttendance false false nm t f).2) ≤ 1 := by
  intro n d
  by_cases hscan : dupScan nm (dateChars t.date) (pyReadlines (initContent f)) = true
  · have heq : (markAttendance false false nm t f).2 = some (initContent f) := by
      simp [markAttendance, hscan]
    rw [heq]
    exact hinv n d
  · have hscanF : dupScan nm (dateChars t.date) (pyReadlines (initContent f)) = false := by
      simpa using hscan
    have heq : (markAttendance false false nm t f).2
        = some (initContent f ++ '\n' ::
            recordLine nm (timeChars t.time) (dateChars t.date)) := by
      simp [markAttendance, hscanF]
    rw [heq]
    show countDup n d
      (initContent f ++ '\n' :: recordLine nm (timeChars t.time) (dateChars t.date)) ≤ 1
    rw [countDup_append_record n d _ _ (newline_not_mem_recordLine nm t.time t.date hn)]
    by_cases hd : isDup n d (recordLine nm (timeChars t.time) (dateChars t.date)) = true
    · rw [isDup_recordLine n d nm t.time t.date hc] at hd
      obtain ⟨rfl, rfl⟩ := of_decide_eq_true hd
      have hzero : countDup nm (dateChars t.date) (initContent f) = 0 := by
        by_contra hne
        have hpos : 0 < countDup nm (dateChars t.date) (initContent f) :=
          Nat.pos_of_ne_zero hne
        exact hscan ((dupScan_iff_countP _ _ _).mpr hpos)
      have hd2 : isDup nm (dateChars t.date)
          (recordLine nm (timeChars t.time) (dateChars t.date)) = true := by
        rw [isDup_recordLine nm (dateChars t.date) nm t.time t.date hc]
        simp
      rw [hzero, hd2]
      simp
    · have hdF : isDup n d (recordLine nm (timeChars t.time) (dateChars t.date)) = false := by
        simpa using hd
      rw [hdF]
      simpa using hinv n d

/-- Sequential fault-free calls with comma-free, newline-free names
preserve the at-most-one-record invariant from any invariant-satisfying
start state. -/
lemma runCalls_inv (reqs : List (List Char × Timestamp)) :
    ∀ (f : Option (List Char)),
      (∀ r ∈ reqs, ',' ∉ r.1 ∧ '\n' ∉ r.1) →
      (∀ n d, countDup n d (initContent f) ≤ 1) →
      ∀ n d, countDup n d (initContent (runCalls reqs f)) ≤ 1 := by
  induction reqs with
  | nil =>
    intro f _ hinv
    exact hinv
  | cons r rs ih =>
    intro f hclean hinv
    have hr := hclean r (List.mem_cons_self _ _)
    exact ih ((markAttendance false false r.1 r.2 f).2)
      (fun x hx => hclean x (List.mem_cons_of_mem _ hx))
      (countDup_le_one_preserved r.1 r.2 f hr.1 hr.2 hinv)

/-! ### Claim C1 -/

/-- C1 (counterexample): the claim fails for a name containing a comma.
With `name = "A,B"` and a header-only ledger holding no record for
`("A,B", 2023-01-01)`, two same-day `markAttendance` calls both return
`MARKED`; the second does not return `ALREADY_LOGGED` as the claim
requires, because the duplicate scan compares only the text before the
first comma (`entry[0] = "A"`) against the full name `"A,B"`. -/
theorem c1_counterexample :
    countDup "A,B".data "2023-01-01".data headerChars = 0 ∧
    (markAttendance false false "A,B".data ⟨⟨2023, 1, 1⟩, ⟨9, 0, 0⟩⟩
        (some headerChars)).1 = MarkResult.MARKED ∧
    (markAttendance false false "A,B".data ⟨⟨2023, 1, 1⟩, ⟨10, 0, 0⟩⟩
        (markAttendance false false "A,B".data ⟨⟨2023, 1, 1⟩, ⟨9, 0, 0⟩⟩
          (some headerChars)).2).1 = MarkResult.MARKED := by
  decide

/-- C1 (amended): for every name containing no comma and no newline, and
any two timestamps on the same calendar day, calling `markAttendance` on a
ledger with no record for (name, day) and then again returns `MARKED` then
`ALREADY_LOGGED`; afterwards the ledger holds exactly one record for that
name and day, carrying the first call's time-of-day, and the second call
leaves the file unchanged. -/
theorem c1_amended (name : List Char) (t1 t2 : Timestamp) (c : List Char)
    (hc : ',' ∉ name) (hn : '\n' ∉ name) (hd : t1.date = t2.date)
    (h0 : countDup name (dateChars t1.date) c = 0) :
    (markAttendance false false name t1 (some c)).1 = MarkResult.MARKED ∧
    (markAttendance false false name t1 (some c)).2
      = some (c ++ '\n' :: recordLine name (timeChars t1.time) (dateChars t1.date)) ∧
    markAttendance false false name t2 (markAttendance false false name t1 (some c)).2
      = (MarkResult.ALREADY_LOGGED,
         some (c ++ '\n' :: recordLine name (timeChars t1.time) (dateChars t1.date))) ∧
    countDup name (dateChars t1.date)
      (c ++ '\n' :: recordLine name (timeChars t1.time) (dateChars t1.date)) = 1 := by
  have hscan : dupScan name (dateChars t1.date) (pyReadlines c) = false := by
    by_contra h
    have htrue : dupScan name (dateChars t1.date) (pyReadlines c) = true := by simpa using h
    have hpos := (dupScan_iff_countP _ _ _).mp htrue
    unfold countDup at h0
    omega
  have hmark1 : markAttendance false false name t1 (some c)
      = (MarkResult.MARKED,
         some (c ++ '\n' :: recordLine name (timeChars t1.time) (dateChars t1.date))) := by
    simp [markAttendance, initContent, hscan]
  have hcount : countDup name (dateChars t1.date)
      (c ++ '\n' :: recordLine name (timeChars t1.time) (dateChars t1.date)) = 1 := by
    rw [countDup_append_record _ _ _ _ (newline_not_mem_recordLine name t1.time t1.date hn),
      h0, isDup_recordLine _ _ _ _ _ hc]
    simp
  have hscan2 : dupScan name (dateChars t2.date)
      (pyReadlines (c ++ '\n' :: recordLine name (timeChars t1.time) (dateChars t1.date)))
        = true := by
    rw [← hd, dupScan_iff_countP]
    show 0 < countDup name (dateChars t1.date)
      (c ++ '\n' :: recordLine name (timeChars t1.time) (dateChars t1.date))
    rw [hcount]
    exact Nat.one_pos
  have hmark2 : markAttendance false false name t2
      (some (c ++ '\n' :: recordLine name (timeChars t1.time) (dateChars t1.date)))
      = (MarkResult.ALREADY_LOGGED,
         some (c ++ '\n' :: recordLine name (timeChars t1.time) (dateChars t1.date))) := by
    simp [markAttendance, initContent, hscan2]
  refine ⟨by rw [hmark1], by rw [hmark1], ?_, hcount⟩
  rw [hmark1]
  exact hmark2

/-- C1 (witness): the amended theorem applied to name `"Al"`, two
timestamps on 2023-01-01 and the freshly-created header-only ledger. -/
theorem c1_amended_witness :
    (markAttendance false false "Al".data ⟨⟨2023, 1, 1⟩, ⟨9, 0, 0⟩⟩
        (some headerChars)).1 = MarkResult.MARKED ∧
    (markAttendance false false "Al".data ⟨⟨2023, 1, 1⟩, ⟨9, 0, 0⟩⟩
        (some headerChars)).2
      = some (headerChars ++ '\n' ::
          recordLine "Al".data (timeChars ⟨9, 0, 0⟩) (dateChars ⟨2023, 1, 1⟩)) ∧
    markAttendance false false "Al".data ⟨⟨2023, 1, 1⟩, ⟨10, 0, 0⟩⟩
        (markAttendance false false "Al".data ⟨⟨2023, 1, 1⟩, ⟨9, 0, 0⟩⟩
          (some headerChars)).2
      = (MarkResult.ALREADY_LOGGED,
         some (headerChars ++ '\n' ::
           recordLine "Al".data (timeChars ⟨9, 0, 0⟩) (dateChars ⟨2023, 1, 1⟩))) ∧
    countDup "Al".data (dateChars ⟨2023, 1, 1⟩)
      (headerChars ++ '\n' ::
        recordLine "Al".data (timeChars ⟨9, 0, 0⟩) (dateChars ⟨2023, 1, 1⟩)) = 1 :=
  c1_amended "Al".data ⟨⟨2023, 1, 1⟩, ⟨9, 0, 0⟩⟩ ⟨⟨2023, 1, 1⟩, ⟨10, 0, 0⟩⟩ headerChars
    (by decide) (by decide) rfl (by decide)

/-! ### Claim C2 -/

/-- C2 (counterexample): with an arbitrary name string the invariant
fails.  Starting from a missing file (created as the header-only ledger),
two sequential `markAttendance` calls with the name
`"Eve,x,2023-01-01,y"` leave a ledger in which the duplicate scan finds
two records for the pair `("Eve", "2023-01-01")`: each appended line
splits so that `entry[0] = "Eve"` and `entry[2] = "2023-01-01"`, and the
scan never matches the full evil name, so the second call appends again. -/
theorem c2_counterexample :
    countDup "Eve".data "2023-01-01".data
      (initContent (runCalls
        [("Eve,x,2023-01-01,y".data, ⟨⟨2023, 1, 1⟩, ⟨9, 0, 0⟩⟩),
         ("Eve,x,2023-01-01,y".data, ⟨⟨2023, 1, 5⟩, ⟨7, 7, 7⟩⟩)] none)) = 2 := by
  decide

/-- C2 (amended): for every ledger reachable from a missing (hence
freshly-initialised, header-only) file by a finite sequence of sequential
fault-free `markAttendance` calls whose names contain no comma and no
newline, the ledger contains at most one record for any (name, date)
pair. -/
theorem c2_amended (reqs : List (List Char × Timestamp)) (n d : List Char)
    (hclean : ∀ r ∈ reqs, ',' ∉ r.1 ∧ '\n' ∉ r.1) :
    countDup n d (initContent (runCalls reqs none)) ≤ 1 :=
  runCalls_inv reqs none hclean (fun n' d' => countDup_headerChars_le_one n' d') n d

/-- C2 (witness): the amended theorem applied to two same-day calls for
`"Alice"` from a missing file, checked at the pair
`("Alice", "2023-01-01")`. -/
theorem c2_amended_witness :
    countDup "Alice".data "2023-01-01".data
      (initContent (runCalls
        [("Alice".data, ⟨⟨2023, 1, 1⟩, ⟨9, 0, 0⟩⟩),
         ("Alice".data, ⟨⟨2023, 1, 1⟩, ⟨10, 0, 0⟩⟩)] none)) ≤ 1 :=
  c2_amended _ "Alice".data "2023-01-01".data (by decide)

/-! ### Claim C9 -/

/-- C9: the at-most-one-record guarantee of a sequential fault-free
`markAttendance` call holds under the precondition that the name contains
no comma and no newline: the call preserves the invariant, and it is
exactly the scan of `countDup` that decides between `ALREADY_LOGGED`
(file unchanged) and `MARKED` (one record line appended), so an existing
record is always detected before appending. -/
theorem c9_dedup_guarantee (name n d : List Char) (t : Timestamp) (c : List Char)
    (hc : ',' ∉ name) (hn : '\n' ∉ name)
    (hinv : ∀ n' d', countDup n' d' c ≤ 1) :
    countDup n d (initContent (markAttendance false false name t (some c)).2) ≤ 1 ∧
    markAttendance false false name t (some c)
      = (if 0 < countDup name (dateChars t.date) c then
          (MarkResult.ALREADY_LOGGED, some c)
        else (MarkResult.MARKED,
          some (c ++ '\n' :: recordLine name (timeChars t.time) (dateChars t.date)))) := by
  constructor
  · exact countDup_le_one_preserved name t (some c) hc hn (fun n' d' => hinv n' d') n d
  · by_cases hpos : 0 < countDup name (dateChars t.date) c
    · have hscan : dupScan name (dateChars t.date) (pyReadlines c) = true :=
        (dupScan_iff_countP _ _ _).mpr hpos
      rw [if_pos hpos]
      simp [markAttendance, initContent, hscan]
    · have hzero : countDup name (dateChars t.date) c = 0 := by omega
      have hscan : dupScan name (dateChars t.date) (pyReadlines c) = false := by
        by_contra h
        have htrue : dupScan name (dateChars t.date) (pyReadlines c) = true := by
          simpa using h
        have := (dupScan_iff_countP _ _ _).mp htrue
        unfold countDup at hzero
        omega
      rw [if_neg hpos]
      simp [markAttendance, initContent, hscan]

/-- C9 (witness): the guarantee applied to name `"Al"` on the
header-only ledger, checked at the pair `("Al", "2023-01-01")`. -/
theorem c9_dedup_guarantee_witness :
    countDup "Al".data "2023-01-01".data
      (initContent (markAttendance false false "Al".data ⟨⟨2023, 1, 1⟩, ⟨9, 0, 0⟩⟩
        (some headerChars)).2) ≤ 1 ∧
    markAttendance false false "Al".data ⟨⟨2023, 1, 1⟩, ⟨9, 0, 0⟩⟩ (some headerChars)
      = (if 0 < countDup "Al".data (dateChars ⟨2023, 1, 1⟩) headerChars then
          (MarkResult.ALREADY_LOGGED, some headerChars)
        else (MarkResult.MARKED,
          some (headerChars ++ '\n' ::
            recordLine "Al".data (timeChars ⟨9, 0, 0⟩) (dateChars ⟨2023, 1, 1⟩)))) :=
  c9_dedup_guarantee "Al".data "Al".data "2023-01-01".data ⟨⟨2023, 1, 1⟩, ⟨9, 0, 0⟩⟩
    headerChars (by decide) (by decide) countDup_headerChars_le_one

/-! ### Claim C5 -/

/-- C5 (counterexample): `app.py`'s `mark_attendance` does not return a
`WriteError` result when the append raises — its result type has no error
value at all — so the claim "markPresent returns WriteError" fails on this
implementation: the write exception propagates to the caller instead. -/
theorem c5_counterexample :
    (mark_attendance none true "Bob".data ⟨⟨2023, 1, 1⟩, ⟨9, 0, 0⟩⟩
        (some headerChars)).1 = Except.error PyExc.ioError := by
  rfl

/-- C5 (amended): when the append fails with an I/O fault and no record
for (name, today) exists, `main.py`'s `markAttendance` returns `"ERROR"`
(its WriteError result) leaving the file unchanged, while `app.py`'s
`mark_attendance` propagates the write exception instead of returning a
WriteError result, also leaving the file unchanged; in both variants no
partial or new record is present after the failed call. -/
theorem c5_amended (name : List Char) (t : Timestamp) (c : List Char)
    (hscan : dupScan name (dateChars t.date) (pyReadlines c) = false) :
    markAttendance false true name t (some c) = (MarkResult.ERROR, some c) ∧
    mark_attendance none true name t (some c)
      = (Except.error PyExc.ioError, some c) := by
  constructor
  · simp [markAttendance, initContent, hscan]
  · simp [mark_attendance, appMarkCore, initContent, hscan]

/-- C5 (witness): the amended theorem applied to `"Bob"` and the
header-only ledger. -/
theorem c5_amended_witness :
    markAttendance false true "Bob".data ⟨⟨2023, 1, 1⟩, ⟨9, 0, 0⟩⟩ (some headerChars)
      = (MarkResult.ERROR, some headerChars) ∧
    mark_attendance none true "Bob".data ⟨⟨2023, 1, 1⟩, ⟨9, 0, 0⟩⟩ (some headerChars)
      = (Except.error PyExc.ioError, some headerChars) :=
  c5_amended "Bob".data ⟨⟨2023, 1, 1⟩, ⟨9, 0, 0⟩⟩ headerChars (by decide)

/-! ### Claim C6 -/

/-- C6: a malformed stored line (fewer than three comma-separated fields)
is skipped by the duplicate scan rather than aborting it: for any name,
`markAttendance` on a ledger whose lines contain such a line returns the
same result as on the ledger without that line, and appends exactly the
same suffix (so dedup and append for unaffected names behave exactly as
on the clean ledger). -/
theorem c6_malformed_skip (name : List Char) (t : Timestamp) (c1 c2 bad : List Char)
    (A B : List (List Char))
    (hbad : (pySplit ',' bad).length < 3)
    (h1 : pyReadlines c1 = A ++ bad :: B)
    (h2 : pyReadlines c2 = A ++ B) :
    (markAttendance false false name t (some c1)).1
      = (markAttendance false false name t (some c2)).1 ∧
    ((markAttendance false false name t (some c1)).2.getD []).drop c1.length
      = ((markAttendance false false name t (some c2)).2.getD []).drop c2.length := by
  have hbadDup : isDup name (dateChars t.date) bad = false := by
    unfold isDup
    rw [decide_eq_false_iff_not]
    intro h
    exact absurd h.1 (not_le.mpr hbad)
  have hscan : dupScan name (dateChars t.date) (pyReadlines c1)
      = dupScan name (dateChars t.date) (pyReadlines c2) := by
    rw [h1, h2]
    unfold dupScan
    rw [List.any_append, List.any_cons, hbadDup, List.any_append]
    simp
  by_cases hs : dupScan name (dateChars t.date) (pyReadlines c2) = true
  · have hs1 : dupScan name (dateChars t.date) (pyReadlines c1) = true := hscan.trans hs
    have m1 : markAttendance false false name t (some c1)
        = (MarkResult.ALREADY_LOGGED, some c1) := by
      simp [markAttendance, initContent, hs1]
    have m2 : markAttendance false false name t (some c2)
        = (MarkResult.ALREADY_LOGGED, some c2) := by
      simp [markAttendance, initContent, hs]
    rw [m1, m2]
    exact ⟨rfl, by simp [List.drop_length]⟩
  · have hsF : dupScan name (dateChars t.date) (pyReadlines c2) = false := by
      simpa using hs
    have hs1 : dupScan name (dateChars t.date) (pyReadlines c1) = false := hscan.trans hsF
    have m1 : markAttendance false false name t (some c1)
        = (MarkResult.MARKED, some (c1 ++ '\n' ::
            recordLine name (timeChars t.time) (dateChars t.date))) := by
      simp [markAttendance, initContent, hs1]
    have m2 : markAttendance false false name t (some c2)
        = (MarkResult.MARKED, some (c2 ++ '\n' ::
            recordLine name (timeChars t.time) (dateChars t.date))) := by
      simp [markAttendance, initContent, hsF]
    rw [m1, m2]
    exact ⟨rfl, by simp [List.drop_left]⟩

/-- C6 (witness): the theorem applied to a ledger holding the header, the
malformed line `"garbage"` and a record for `"Al"`, versus the same
ledger without the malformed line. -/
theorem c6_malformed_skip_witness :
    (markAttendance false false "Al".data ⟨⟨2023, 1, 2⟩, ⟨8, 0, 0⟩⟩
        (some "Name,Time,Date\ngarbage\nAl,09:00:00,2023-01-01".data)).1
      = (markAttendance false false "Al".data ⟨⟨2023, 1, 2⟩, ⟨8, 0, 0⟩⟩
        (some "Name,Time,Date\nAl,09:00:00,2023-01-01".data)).1 ∧
    ((markAttendance false false "Al".data ⟨⟨2023, 1, 2⟩, ⟨8, 0, 0⟩⟩
        (some "Name,Time,Date\ngarbage\nAl,09:00:00,2023-01-01".data)).2.getD []).drop
          "Name,Time,Date\ngarbage\nAl,09:00:00,2023-01-01".data.length
      = ((markAttendance false false "Al".data ⟨⟨2023, 1, 2⟩, ⟨8, 0, 0⟩⟩
        (some "Name,Time,Date\nAl,09:00:00,2023-01-01".data)).2.getD []).drop
          "Name,Time,Date\nAl,09:00:00,2023-01-01".data.length :=
  c6_malformed_skip "Al".data ⟨⟨2023, 1, 2⟩, ⟨8, 0, 0⟩⟩
    "Name,Time,Date\ngarbage\nAl,09:00:00,2023-01-01".data
    "Name,Time,Date\nAl,09:00:00,2023-01-01".data
    "garbage\n".data ["Name,Time,Date\n".data] ["Al,09:00:00,2023-01-01".data]
    (by decide) (by decide) (by decide)

/-! ### Claim C8 -/

/-- C8: the code's read-check-append sequence is not serialised, so two
concurrent `markAttendance` calls for `"Bob"` on the same day, interleaved
as read-read-append-append on a fresh ledger, both return `MARKED` and
leave two stored records for `("Bob", 2023-01-01)` — contradicting the
claim that exactly one call returns `Marked` and exactly one record is
stored. -/
theorem c8_interleaving_duplicate :
    (interleavedPair "Bob".data "Bob".data ⟨⟨2023, 1, 1⟩, ⟨9, 0, 0⟩⟩
        ⟨⟨2023, 1, 1⟩, ⟨9, 5, 0⟩⟩ none).1
      = (MarkResult.MARKED, MarkResult.MARKED) ∧
    countDup "Bob".data "2023-01-01".data
      (interleavedPair "Bob".data "Bob".data ⟨⟨2023, 1, 1⟩, ⟨9, 0, 0⟩⟩
        ⟨⟨2023, 1, 1⟩, ⟨9, 5, 0⟩⟩ none).2 = 2 := by
  decide

/-! ### Claim C10 -/

/-- C10: in `main.py`'s `markAttendance` every read fault is swallowed by
the bare `except:` and the ledger is treated as holding zero records, so
the call appends a new record and returns `MARKED` for every file content
— even one that already holds a record for (name, today); `app.py`'s
`mark_attendance` swallows only `FileNotFoundError` in that position
(then also proceeding to append), while any other read exception
propagates and nothing is appended. -/
theorem c10_read_fault_swallow (name : List Char) (t : Timestamp) (c : List Char) :
    markAttendance true false name t (some c)
      = (MarkResult.MARKED,
         some (c ++ '\n' :: recordLine name (timeChars t.time) (dateChars t.date))) ∧
    mark_attendance (some PyExc.fileNotFound) false name t (some c)
      = (Except.ok AppResult.Marked,
         some (c ++ '\n' :: recordLine name (timeChars t.time) (dateChars t.date))) ∧
    mark_attendance (some PyExc.ioError) false name t (some c)
      = (Except.error PyExc.ioError, some c) := by
  refine ⟨?_, ?_, rfl⟩
  · simp [markAttendance, dupScan, initContent]
  · simp [mark_attendance, appMarkCore, dupScan, initContent]

/-! ### Matcher lemmas -/

lemma getD_map {α β : Type} (f : α → β) (l : List α) (i : Nat) (da : α) (db : β)
    (h : i < l.length) : (l.map f).getD i db = f (l.getD i da) := by
  induction l generalizing i with
  | nil => simp at h
  | cons x xs ih =>
    cases i with
    | zero => rfl
    | succ k =>
      have hk : k < xs.length := by simpa using h
      simpa [List.getD_cons_succ] using ih k hk

lemma minD_cons_cons (x y : ℚ) (ys : List ℚ) :
    minD (x :: y :: ys) = min x (minD (y :: ys)) := by
  conv_lhs => unfold minD

lemma argminIdx_cons_cons (x y : ℚ) (ys : List ℚ) :
    argminIdx (x :: y :: ys)
      = if x ≤ (y :: ys).getD (argminIdx (y :: ys)) 0 then 0
        else argminIdx (y :: ys) + 1 := by
  conv_lhs => unfold argminIdx

/-- Specification of `np.argmin`: on a nonempty list it returns an index
holding the minimum, and every strictly earlier index holds a strictly
larger value (first-occurrence tie-breaking). -/
lemma argminIdx_spec : ∀ (l : List ℚ), l ≠ [] →
    l.getD (argminIdx l) 0 = minD l ∧ argminIdx l < l.length ∧
    ∀ j, j < argminIdx l → minD l < l.getD j 0 := by
  intro l
  induction l with
  | nil => intro h; exact absurd rfl h
  | cons x xs ih =>
    intro _
    cases xs with
    | nil =>
      refine ⟨rfl, by simp [argminIdx], ?_⟩
      intro j hj
      simp [argminIdx] at hj
    | cons y ys =>
      obtain ⟨ih1, ih2, ih3⟩ := ih (by simp)
      by_cases hx : x ≤ (y :: ys).getD (argminIdx (y :: ys)) 0
      · have hidx : argminIdx (x :: y :: ys) = 0 := by
          rw [argminIdx_cons_cons, if_pos hx]
        rw [ih1] at hx
        refine ⟨?_, ?_, ?_⟩
        · rw [hidx, minD_cons_cons, List.getD_cons_zero]
          exact (min_eq_left hx).symm
        · rw [hidx]
          simp
        · intro j hj
          rw [hidx] at hj
          exact absurd hj (Nat.not_lt_zero j)
      · have hidx : argminIdx (x :: y :: ys) = argminIdx (y :: ys) + 1 := by
          rw [argminIdx_cons_cons, if_neg hx]
        rw [ih1] at hx
        have hlt : minD (y :: ys) < x := not_le.mp hx
        have hmin : minD (x :: y :: ys) = minD (y :: ys) := by
          rw [minD_cons_cons]
          exact min_eq_right (le_of_lt hlt)
        refine ⟨?_, ?_, ?_⟩
        · rw [hidx, hmin, List.getD_cons_succ]
          exact ih1
        · rw [hidx]
          simpa using Nat.succ_lt_succ ih2
        · intro j hj
          rw [hidx] at hj
          cases j with
          | zero =>
            rw [hmin, List.getD_cons_zero]
            exact hlt
          | succ k =>
            rw [hmin, List.getD_cons_succ]
            exact ih3 k (Nat.lt_of_succ_lt_succ hj)

lemma argmin_eq_some (l : List ℚ) (h : l ≠ []) :
    argmin l = some (argminIdx l) := by
  obtain ⟨x, xs, rfl⟩ := List.exists_cons_of_ne_nil h
  rfl

/-- Full evaluation of one face of `main.py`'s recognition loop on a
nonempty gallery: the selected index is the first minimiser, the shown
score is the minimum distance, and the recognised/stranger decision is
exactly `minimum distance ≤ 0.6`. -/
lemma mainRecognizeStep_eval (d : Emb → Emb → ℚ) (names : List (List Char))
    (known : List Emb) (probe : Emb) (h : known ≠ []) :
    mainRecognizeStep d names known probe
      = Except.ok (if minD (face_distance d known probe) ≤ 3 / 5 then
          RecogOutcome.Recognized
            (pyUpper (names.getD (argminIdx (face_distance d known probe)) []))
            (minD (face_distance d known probe))
        else RecogOutcome.Stranger (minD (face_distance d known probe))) := by
  have hne : face_distance d known probe ≠ [] := by
    simp [face_distance]
    exact h
  obtain ⟨h1, h2, h3⟩ := argminIdx_spec (face_distance d known probe) hne
  have hargmin := argmin_eq_some (face_distance d known probe) hne
  have hget : (compare_faces d known probe (3 / 5)).getD
      (argminIdx (face_distance d known probe)) false
      = decide ((face_distance d known probe).getD
          (argminIdx (face_distance d known probe)) 0 ≤ 3 / 5) := by
    unfold compare_faces
    exact getD_map _ _ _ 0 false h2
  simp only [mainRecognizeStep, hargmin, hget, h1]
  by_cases hle : minD (face_distance d known probe) ≤ 3 / 5
  · simp [hle]
  · simp [hle]

/-! ### Claim C3 -/

/-- C3: on an empty gallery, `main.py`'s recognition step fails with a
raised `ValueError`: `np.argmin(faceDis)` is evaluated on an empty
distance array before the `len(faceDis) > 0` guard can apply, so the
loop never produces a NoMatch result.  `app.py`'s Simple Mode does
implement the claim: its `if not knownEncodings` guard yields the
distinct not-ready outcome (never Unknown) without calling the matcher. -/
theorem c3_empty_gallery (d : Emb → Emb → ℚ) (names : List (List Char)) (probe : Emb)
    (t : Timestamp) (f : Option (List Char)) :
    mainRecognizeStep d names [] probe = Except.error PyExc.valueError ∧
    simpleModeStep d names [] probe t f = (SimpleOutcome.NoUsers, f) :=
  ⟨rfl, rfl⟩

/-! ### Claim C4 -/

/-- C4 (counterexample): a probe whose distance to the only gallery entry
is exactly the threshold 0.6 is recognised, not unknown: the library's
`compare_faces` test is `distance <= tolerance`, so at equality the code
returns a match, contradicting the claim that `Match` requires a
strictly smaller distance. -/
theorem c4_counterexample :
    mainRecognizeStep (fun _ _ => 3 / 5) [['A']] [[0]] [0]
      = Except.ok (RecogOutcome.Recognized ['A'] (3 / 5)) := by
  have h := mainRecognizeStep_eval (fun _ _ => 3 / 5) [['A']] [[0]] [0] (by simp)
  rw [h]
  norm_num [face_distance, minD, argminIdx, pyUpper]
  decide

/-- C4 (amended): for a nonempty gallery the code returns a match exactly
when the minimum distance is less than or equal to the threshold 0.6 — a
probe at distance exactly the threshold yields `Match`, and only a
strictly greater minimum yields `Unknown`, which still reports the
closest distance as its score. -/
theorem c4_amended (d : Emb → Emb → ℚ) (names : List (List Char)) (known : List Emb)
    (probe : Emb) (h : known ≠ []) :
    (minD (face_distance d known probe) ≤ 3 / 5 →
      mainRecognizeStep d names known probe
        = Except.ok (RecogOutcome.Recognized
            (pyUpper (names.getD (argminIdx (face_distance d known probe)) []))
            (minD (face_distance d known probe)))) ∧
    (3 / 5 < minD (face_distance d known probe) →
      mainRecognizeStep d names known probe
        = Except.ok (RecogOutcome.Stranger (minD (face_distance d known probe)))) := by
  constructor
  · intro hle
    rw [mainRecognizeStep_eval d names known probe h, if_pos hle]
  · intro hgt
    rw [mainRecognizeStep_eval d names known probe h, if_neg (not_le.mpr hgt)]

/-- C4 (witness): the amended theorem applied to a single-entry gallery
at distance 1 from the probe: above the 0.6 threshold, the result is
`Stranger` carrying the closest distance 1. -/
theorem c4_amended_witness :
    mainRecognizeStep (fun _ _ => (1 : ℚ)) [['A']] [[0]] [0]
      = Except.ok (RecogOutcome.Stranger 1) :=
  (c4_amended (fun _ _ => (1 : ℚ)) [['A']] [[0]] [0] (by simp)).2
    (by norm_num [face_distance, minD])

/-! ### Claim C7 -/

/-- C7: on a nonempty gallery the recognition step deterministically
selects the gallery entry of minimum distance: `np.argmin` returns an
index whose distance equals the minimum while every strictly earlier
index has a strictly larger distance (so among equidistant minimisers the
first in gallery order wins), and the outcome is a function of the
selected index and minimum distance alone. -/
theorem c7_min_selection (d : Emb → Emb → ℚ) (names : List (List Char))
    (known : List Emb) (probe : Emb) (h : known ≠ []) :
    argmin (face_distance d known probe)
      = some (argminIdx (face_distance d known probe)) ∧
    (face_distance d known probe).getD (argminIdx (face_distance d known probe)) 0
      = minD (face_distance d known probe) ∧
    (∀ j, j < argminIdx (face_distance d known probe)
      → minD (face_distance d known probe) < (face_distance d known probe).getD j 0) ∧
    mainRecognizeStep d names known probe
      = Except.ok (if minD (face_distance d known probe) ≤ 3 / 5 then
          RecogOutcome.Recognized
            (pyUpper (names.getD (argminIdx (face_distance d known probe)) []))
            (minD (face_distance d known probe))
        else RecogOutcome.Stranger (minD (face_distance d known probe))) := by
  have hne : face_distance d known probe ≠ [] := by
    simp [face_distance]
    exact h
  obtain ⟨h1, h2, h3⟩ := argminIdx_spec (face_distance d known probe) hne
  exact ⟨argmin_eq_some _ hne, h1, h3, mainRecognizeStep_eval d names known probe h⟩

/-- C7 (witness): the theorem applied to a three-entry gallery whose
first coordinate is the distance, with a tie between entries 1 and 2 at
the minimum distance 1. -/
theorem c7_min_selection_witness :
    argmin (face_distance (fun e _ => e.getD 0 0) [[2], [1], [1]] [])
      = some (argminIdx (face_distance (fun e _ => e.getD 0 0) [[2], [1], [1]] [])) ∧
    (face_distance (fun e _ => e.getD 0 0) [[2], [1], [1]] []).getD
        (argminIdx (face_distance (fun e _ => e.getD 0 0) [[2], [1], [1]] [])) 0
      = minD (face_distance (fun e _ => e.getD 0 0) [[2], [1], [1]] []) ∧
    (∀ j, j < argminIdx (face_distance (fun e _ => e.getD 0 0) [[2], [1], [1]] [])
      → minD (face_distance (fun e _ => e.getD 0 0) [[2], [1], [1]] [])
        < (face_distance (fun e _ => e.getD 0 0) [[2], [1], [1]] []).getD j 0) ∧
    mainRecognizeStep (fun e _ => e.getD 0 0) [['A'], ['B'], ['C']] [[2], [1], [1]] []
      = Except.ok
          (if minD (face_distance (fun e _ => e.getD 0 0) [[2], [1], [1]] []) ≤ 3 / 5 then
            RecogOutcome.Recognized
              (pyUpper (([['A'], ['B'], ['C']] : List (List Char)).getD
                (argminIdx (face_distance (fun e _ => e.getD 0 0) [[2], [1], [1]] [])) []))
              (minD (face_distance (fun e _ => e.getD 0 0) [[2], [1], [1]] []))
          else RecogOutcome.Stranger
            (minD (face_distance (fun e _ => e.getD 0 0) [[2], [1], [1]] []))) :=
  c7_min_selection (fun e _ => e.getD 0 0) [['A'], ['B'], ['C']] [[2], [1], [1]] []
    (by simp)

end AttendanceSystem
